import Mathlib

/-!
# Verification of the Condor oracle builder (`condor_oracle.py`)

Shallow embedding of the single source module `src/condor_oracle.py`, which
constructs a reversible 17-qubit query oracle marking the secret 16-bit
configuration, and proofs of the specified properties.

Circuits are modelled structurally: a circuit is a declared number of wires
together with an ordered list of instructions; an instruction is either a
primitive gate (single-wire complement `x`, or multi-controlled complement
`mcx`) or an application of a boxed (opaque) gate to a list of wires.
Classical basis-state semantics assigns to each instruction a transform on
states `Nat → Bool` (wire index to boolean value), which is exactly the
action of the quantum circuit on computational basis states.
-/

/-- A primitive gate as appended by the source code: `qc.x(i)` or
`qc.mcx(controls, target)`. -/
inductive PrimGate where
  | x : Nat → PrimGate
  | mcx : List Nat → Nat → PrimGate
deriving DecidableEq, Repr

/-- A boxed gate, as produced by `QuantumCircuit.to_gate(label=...)`: a named,
labelled unit wrapping an internal primitive-gate sequence over a declared
number of qubits. -/
structure BoxedGate where
  name : String
  label : String
  numQubits : Nat
  defn : List PrimGate
deriving DecidableEq, Repr

/-- One instruction of a circuit: a primitive gate, or a boxed gate applied to
an explicit list of wires. -/
inductive Instr where
  | prim : PrimGate → Instr
  | boxed : BoxedGate → List Nat → Instr
deriving DecidableEq, Repr

/-- A circuit: declared wire count, name, and ordered instruction list
(mirroring `qiskit.QuantumCircuit(n, name=...)` plus its appended data). -/
structure QuantumCircuit where
  numQubits : Nat
  name : String
  instrs : List Instr
deriving DecidableEq, Repr

/-- `qc.x(i)`: append a single-wire complement gate on wire `i`. This is the
append itself, the in-range case of qiskit's behaviour; the variant
`QuantumCircuit.xExc` below adds the library's wire-index bounds check
(`CircuitError` on `i ≥ numQubits`) and is used for claims whose truth turns
on the error path. -/
def QuantumCircuit.x (qc : QuantumCircuit) (i : Nat) : QuantumCircuit :=
  QuantumCircuit.mk qc.numQubits qc.name (qc.instrs ++ [Instr.prim (PrimGate.x i)])

/-- `qc.mcx(controls, target)`: append a multi-controlled complement gate (the
in-range case; `QuantumCircuit.mcxExc` below carries the bounds check). -/
def QuantumCircuit.mcx (qc : QuantumCircuit) (controls : List Nat) (target : Nat) :
    QuantumCircuit :=
  QuantumCircuit.mk qc.numQubits qc.name
    (qc.instrs ++ [Instr.prim (PrimGate.mcx controls target)])

/-- `qc.x(i)` with qiskit's wire-index bounds check: appending a complement
gate on a wire index at or beyond the declared qubit count raises a
`CircuitError` instead of extending the circuit. -/
def QuantumCircuit.xExc (qc : QuantumCircuit) (i : Nat) : Except String QuantumCircuit :=
  if i < qc.numQubits then Except.ok (qc.x i)
  else Except.error "CircuitError: qubit index out of range"

/-- `qc.mcx(controls, target)` with qiskit's wire-index bounds check on every
control and on the target. -/
def QuantumCircuit.mcxExc (qc : QuantumCircuit) (controls : List Nat) (target : Nat) :
    Except String QuantumCircuit :=
  if controls.all (fun c => decide (c < qc.numQubits)) && decide (target < qc.numQubits)
  then Except.ok (qc.mcx controls target)
  else Except.error "CircuitError: qubit index out of range"

/-- `qc.append(gate, wires)`: append an application of a boxed gate. -/
def QuantumCircuit.append (qc : QuantumCircuit) (g : BoxedGate) (wires : List Nat) :
    QuantumCircuit :=
  QuantumCircuit.mk qc.numQubits qc.name (qc.instrs ++ [Instr.boxed g wires])

/-- `qc.qubits`: the circuit's wires in order. -/
def QuantumCircuit.qubits (qc : QuantumCircuit) : List Nat :=
  List.range qc.numQubits

/-- Rename a gate's wire indices (used when a boxed gate is applied to an
explicit wire list: internal index `i` acts on `wires[i]`). -/
def PrimGate.remap (f : Nat → Nat) : PrimGate → PrimGate
  | PrimGate.x i => PrimGate.x (f i)
  | PrimGate.mcx cs t => PrimGate.mcx (cs.map f) (f t)

/-- Flatten one instruction to the primitive gates it performs on the
enclosing circuit's wires. -/
def Instr.flatten : Instr → List PrimGate
  | Instr.prim g => [g]
  | Instr.boxed g wires => g.defn.map (PrimGate.remap (fun i => wires.getD i 0))

/-- `qc.to_gate(label=...)`: box a circuit's gate sequence into a single named
unit carrying the circuit's name, the given label and its qubit count. -/
def QuantumCircuit.to_gate (qc : QuantumCircuit) (label : String) : BoxedGate :=
  BoxedGate.mk qc.name label qc.numQubits (qc.instrs.flatMap Instr.flatten)

/-- Action of one primitive gate on a classical basis state. `x i` complements
wire `i`; `mcx cs t` complements wire `t` exactly when every control wire in
`cs` reads `true`. -/
def applyPrim (s : Nat → Bool) : PrimGate → (Nat → Bool)
  | PrimGate.x i => fun j => if j = i then !(s j) else s j
  | PrimGate.mcx cs t => fun j => if j = t then Bool.xor (s j) (cs.all s) else s j

/-- Action of a primitive-gate sequence, first gate first. -/
def applyPrims (gs : List PrimGate) (s : Nat → Bool) : Nat → Bool :=
  gs.foldl applyPrim s

/-- Action of a whole circuit on a classical basis state. -/
def QuantumCircuit.run (qc : QuantumCircuit) (s : Nat → Bool) : Nat → Bool :=
  applyPrims (qc.instrs.flatMap Instr.flatten) s

/-! ## The source module `condor_oracle.py` -/

/-- Number of configuration bits for the Condor scheduler. -/
def N_CONFIG_BITS : Nat := 16

/-- Internal secret configuration (organisers only),
`x* = 1 0 1 1 1 0 1 0 1 1 0 1 0 1 0 1` (`x_0 ... x_15`). -/
def SECRET_BITSTRING : String := "1011101011010101"

/-- `_build_internal_condor_oracle`, with the module-global `SECRET_BITSTRING`
it reads made an explicit parameter: build the internal `(n+1)`-qubit oracle
circuit. Pre-flip the positions whose secret character is `'0'`, apply an
`n`-controlled complement on the ancilla (wire `n`), undo the flips. -/
def buildInternalCondorOracleWith (secret : String) : QuantumCircuit :=
  let n := N_CONFIG_BITS
  let qc := QuantumCircuit.mk (n + 1) "Uf_condor_internal" []
  let controls := List.range n
  let anc := n
  let zeros := (secret.data.enum.filter (fun p => p.snd == '0')).map Prod.fst
  let qc := zeros.foldl QuantumCircuit.x qc
  let qc := qc.mcx controls anc
  let qc := zeros.foldl QuantumCircuit.x qc
  qc

/-- `_build_internal_condor_oracle()` as in the source: the internal builder
applied to the module constant `SECRET_BITSTRING`. -/
def _build_internal_condor_oracle : QuantumCircuit :=
  buildInternalCondorOracleWith SECRET_BITSTRING

/-- `build_Uf_condor`, parameterised by the secret read through
`_build_internal_condor_oracle`: box the internal circuit into a gate with
LaTeX label, rename it `"Uf_condor"`, and append it across all 17 wires of a
fresh wrapper circuit. -/
def build_Uf_condorWith (secret : String) : QuantumCircuit :=
  let internal := buildInternalCondorOracleWith secret
  let g0 := internal.to_gate "$U_f$"
  let Uf_gate := BoxedGate.mk "Uf_condor" g0.label g0.numQubits g0.defn
  let wrapper := QuantumCircuit.mk (N_CONFIG_BITS + 1) "Uf_condor" []
  wrapper.append Uf_gate wrapper.qubits

/-- `build_Uf_condor()` as in the source: the public builder applied to the
module constant `SECRET_BITSTRING`. -/
def build_Uf_condor : QuantumCircuit :=
  build_Uf_condorWith SECRET_BITSTRING

/-- Model of the module top level: importing `condor_oracle` only binds the
two constants and the two function definitions; no statement of the module
body can raise, so initialization always succeeds with the bound constants. -/
def condorModuleInitWith (secret : String) : Except String (Nat × String) :=
  Except.ok (N_CONFIG_BITS, secret)

/-- `_build_internal_condor_oracle` with the library's call-time error path
kept: identical to `buildInternalCondorOracleWith`, but every `qc.x(i)` and
the `qc.mcx(...)` go through the bounds-checked appends, so a secret with a
`'0'` at a string index `≥ 17` makes the build raise, exactly as qiskit's
`CircuitError` would at call time. -/
def buildInternalCondorOracleExc (secret : String) : Except String QuantumCircuit := do
  let n := N_CONFIG_BITS
  let qc := QuantumCircuit.mk (n + 1) "Uf_condor_internal" []
  let controls := List.range n
  let anc := n
  let zeros := (secret.data.enum.filter (fun p => p.snd == '0')).map Prod.fst
  let qc ← zeros.foldlM QuantumCircuit.xExc qc
  let qc ← qc.mcxExc controls anc
  let qc ← zeros.foldlM QuantumCircuit.xExc qc
  pure qc

/-- `build_Uf_condor` on top of the bounds-checked internal builder: any
call-time `CircuitError` from the internal construction propagates, otherwise
the boxing and wrapping proceed as in `build_Uf_condorWith` (the wrapper's
own append targets `wrapper.qubits`, always in range). -/
def build_Uf_condorExc (secret : String) : Except String QuantumCircuit := do
  let internal ← buildInternalCondorOracleExc secret
  let g0 := internal.to_gate "$U_f$"
  let Uf_gate := BoxedGate.mk "Uf_condor" g0.label g0.numQubits g0.defn
  let wrapper := QuantumCircuit.mk (N_CONFIG_BITS + 1) "Uf_condor" []
  pure (wrapper.append Uf_gate wrapper.qubits)

/-! ## Specification-side vocabulary -/

/-- Bit `i` of the secret pattern, string index `i` read as wire `i`
(`'1' ↦ true`). -/
def secretBool (i : Nat) : Bool :=
  SECRET_BITSTRING.data.getD i '0' == '1'

/-- The 17-wire basis state `|x, y⟩`: wires `0..15` hold the configuration
vector `x`, wire `16` holds the ancilla `y`, all further wires read `false`. -/
def basisState (x : Nat → Bool) (y : Bool) : Nat → Bool :=
  fun j => if j < N_CONFIG_BITS then x j else if j = N_CONFIG_BITS then y else false

/-- `x == SECRET_BITSTRING`: the configuration vector agrees with the secret
pattern on every index `0..15`. -/
def matchesSecret (x : Nat → Bool) : Prop :=
  ∀ i, i < N_CONFIG_BITS → x i = secretBool i

instance (x : Nat → Bool) : Decidable (matchesSecret x) := by
  unfold matchesSecret; infer_instance

/-- The condition under which the circuit's `mcx` fires, read off a full
state: every input wire agrees with the secret pattern. -/
def oracleCondition (s : Nat → Bool) : Bool :=
  (List.range N_CONFIG_BITS).all (fun c => s c == secretBool c)

/-- A configuration vector from a bitstring, for the end-to-end scenario. -/
def bitsOfString (t : String) : Nat → Bool :=
  fun i => t.data.getD i '0' == '1'

/-- Wire-range discipline: every wire index a primitive gate addresses lies
below the given bound. -/
def PrimGate.wiresBelow (bound : Nat) : PrimGate → Bool
  | PrimGate.x i => decide (i < bound)
  | PrimGate.mcx cs t => cs.all (fun c => decide (c < bound)) && decide (t < bound)

/-- The concrete list of pre-flip positions computed by the builder: the
indices of `SECRET_BITSTRING` holding character `'0'`. -/
def condorZeros : List Nat := [1, 5, 7, 10, 12, 14]

/-- The concrete primitive-gate sequence the public circuit performs. -/
def condorFlatGates : List PrimGate :=
  condorZeros.map PrimGate.x
    ++ [PrimGate.mcx (List.range N_CONFIG_BITS) N_CONFIG_BITS]
    ++ condorZeros.map PrimGate.x

/-- Complement every wire listed in `l` (the action of a run of `x` gates on
pairwise-distinct wires). -/
def xFold (l : List Nat) (s : Nat → Bool) : Nat → Bool :=
  fun j => if j ∈ l then !(s j) else s j

/-! ## Structural lemmas -/

lemma condorZeros_nodup : condorZeros.Nodup := by decide

lemma build_flat_eq :
    build_Uf_condor.instrs.flatMap Instr.flatten = condorFlatGates := by decide

lemma applyPrims_append (l1 l2 : List PrimGate) (s : Nat → Bool) :
    applyPrims (l1 ++ l2) s = applyPrims l2 (applyPrims l1 s) := by
  simp [applyPrims, List.foldl_append]

lemma applyPrims_xmap (l : List Nat) (hl : l.Nodup) (s : Nat → Bool) :
    applyPrims (l.map PrimGate.x) s = xFold l s := by
  induction l generalizing s with
  | nil => funext j; simp [applyPrims, xFold]
  | cons i l ih =>
    have hi : i ∉ l := (List.nodup_cons.mp hl).1
    have hl2 : l.Nodup := (List.nodup_cons.mp hl).2
    have step : applyPrims ((i :: l).map PrimGate.x) s
        = applyPrims (l.map PrimGate.x) (applyPrim s (PrimGate.x i)) := rfl
    rw [step, ih hl2]
    funext j
    by_cases hj : j ∈ l
    · have hne : j ≠ i := fun h => hi (h ▸ hj)
      simp [xFold, applyPrim, hj, hne]
    · by_cases hji : j = i
      · simp [xFold, applyPrim, hj, hji, hi]
      · simp [xFold, applyPrim, hj, hji]

lemma list_all_congr (l : List Nat) (f g : Nat → Bool) (h : ∀ c ∈ l, f c = g c) :
    l.all f = l.all g := by
  induction l with
  | nil => rfl
  | cons a l ih =>
    simp only [List.all_cons]
    rw [h a (List.mem_cons_self a l), ih (fun c hc => h c (List.mem_cons_of_mem a hc))]

lemma xFold_condor_control (s : Nat → Bool) (c : Nat) (hc : c < 16) :
    xFold condorZeros s c = (s c == secretBool c) := by
  have h0 : ∀ c, c < 16 → (c ∈ condorZeros ↔ secretBool c = false) := by decide
  unfold xFold
  by_cases hm : c ∈ condorZeros
  · rw [if_pos hm, (h0 c hc).mp hm]
    cases s c <;> rfl
  · rw [if_neg hm]
    have hsb : secretBool c = true := by
      cases hb : secretBool c
      · exact absurd ((h0 c hc).mpr hb) hm
      · rfl
    rw [hsb]
    cases s c <;> rfl

lemma all_xFold_eq_oracleCondition (s : Nat → Bool) :
    (List.range N_CONFIG_BITS).all (xFold condorZeros s) = oracleCondition s := by
  unfold oracleCondition
  exact list_all_congr _ _ _
    (fun c hc => xFold_condor_control s c (List.mem_range.mp hc))

lemma applyPrims_condorFlat (s : Nat → Bool) :
    applyPrims condorFlatGates s
      = fun j => if j = 16 then Bool.xor (s j) (oracleCondition s) else s j := by
  have h16 : (16 : Nat) ∉ condorZeros := by decide
  have hne : ∀ j ∈ condorZeros, j ≠ 16 := by decide
  have hsplit : applyPrims condorFlatGates s
      = xFold condorZeros
          (applyPrim (xFold condorZeros s)
            (PrimGate.mcx (List.range N_CONFIG_BITS) N_CONFIG_BITS)) := by
    unfold condorFlatGates
    rw [applyPrims_append, applyPrims_append,
      applyPrims_xmap _ condorZeros_nodup, applyPrims_xmap _ condorZeros_nodup]
    rfl
  rw [hsplit]
  funext j
  show xFold condorZeros
      (applyPrim (xFold condorZeros s)
        (PrimGate.mcx (List.range N_CONFIG_BITS) N_CONFIG_BITS)) j
    = if j = 16 then Bool.xor (s j) (oracleCondition s) else s j
  by_cases hj16 : j = 16
  · subst hj16
    have e1 : xFold condorZeros
        (applyPrim (xFold condorZeros s)
          (PrimGate.mcx (List.range N_CONFIG_BITS) N_CONFIG_BITS)) 16
        = applyPrim (xFold condorZeros s)
            (PrimGate.mcx (List.range N_CONFIG_BITS) N_CONFIG_BITS) 16 := if_neg h16
    have e2 : applyPrim (xFold condorZeros s)
        (PrimGate.mcx (List.range N_CONFIG_BITS) N_CONFIG_BITS) 16
        = Bool.xor (xFold condorZeros s 16)
            ((List.range N_CONFIG_BITS).all (xFold condorZeros s)) := by
      simp [applyPrim, N_CONFIG_BITS]
    have e3 : xFold condorZeros s 16 = s 16 := if_neg h16
    rw [e1, e2, e3, all_xFold_eq_oracleCondition]
    simp
  · by_cases hj : j ∈ condorZeros
    · have e1 : xFold condorZeros
          (applyPrim (xFold condorZeros s)
            (PrimGate.mcx (List.range N_CONFIG_BITS) N_CONFIG_BITS)) j
          = !(applyPrim (xFold condorZeros s)
              (PrimGate.mcx (List.range N_CONFIG_BITS) N_CONFIG_BITS) j) := if_pos hj
      have e2 : applyPrim (xFold condorZeros s)
          (PrimGate.mcx (List.range N_CONFIG_BITS) N_CONFIG_BITS) j
          = xFold condorZeros s j := by
        simp [applyPrim, N_CONFIG_BITS, hj16]
      have e3 : xFold condorZeros s j = !(s j) := if_pos hj
      rw [e1, e2, e3, Bool.not_not]
      simp [hj16]
    · have e1 : xFold condorZeros
          (applyPrim (xFold condorZeros s)
            (PrimGate.mcx (List.range N_CONFIG_BITS) N_CONFIG_BITS)) j
          = applyPrim (xFold condorZeros s)
              (PrimGate.mcx (List.range N_CONFIG_BITS) N_CONFIG_BITS) j := if_neg hj
      have e2 : applyPrim (xFold condorZeros s)
          (PrimGate.mcx (List.range N_CONFIG_BITS) N_CONFIG_BITS) j
          = xFold condorZeros s j := by
        simp [applyPrim, N_CONFIG_BITS, hj16]
      have e3 : xFold condorZeros s j = s j := if_neg hj
      rw [e1, e2, e3]
      simp [hj16]

lemma build_Uf_condor_run_char (s : Nat → Bool) :
    build_Uf_condor.run s
      = fun j => if j = 16 then Bool.xor (s j) (oracleCondition s) else s j := by
  unfold QuantumCircuit.run
  rw [build_flat_eq, applyPrims_condorFlat]

lemma oracleCondition_congr (s t : Nat → Bool) (h : ∀ c, c < 16 → s c = t c) :
    oracleCondition s = oracleCondition t := by
  unfold oracleCondition
  exact list_all_congr _ _ _ (fun c hc => by rw [h c (List.mem_range.mp hc)])

lemma oracleCondition_basisState (x : Nat → Bool) (y : Bool) :
    oracleCondition (basisState x y) = decide (matchesSecret x) := by
  have h1 : oracleCondition (basisState x y) = oracleCondition x :=
    oracleCondition_congr _ _ (fun c hc => by simp [basisState, N_CONFIG_BITS, hc])
  have h2 : oracleCondition x = decide (matchesSecret x) := by
    rw [Bool.eq_iff_iff]
    simp [oracleCondition, List.all_eq_true, List.mem_range, matchesSecret]
  rw [h1, h2]

/-! ## Claims -/

/-- C1: For every 16-bit configuration vector `x` and every ancilla value `y`,
applying the circuit returned by `build_Uf_condor()` to the basis state
`|x, y⟩` yields the basis state `|x, y ⊕ [x == SECRET_BITSTRING]⟩`: the
ancilla is flipped exactly when `x` equals the secret pattern and is
unchanged otherwise. -/
theorem C1_oracle_maps_basis_states (x : Nat → Bool) (y : Bool) :
    build_Uf_condor.run (basisState x y)
      = basisState x (Bool.xor y (decide (matchesSecret x))) := by
  rw [build_Uf_condor_run_char]
  funext j
  by_cases hj16 : j = 16
  · subst hj16
    show (if (16 : Nat) = 16
        then Bool.xor (basisState x y 16) (oracleCondition (basisState x y))
        else basisState x y 16)
      = basisState x (Bool.xor y (decide (matchesSecret x))) 16
    rw [if_pos rfl, oracleCondition_basisState]
    simp [basisState, N_CONFIG_BITS]
  · show (if j = 16
        then Bool.xor (basisState x y j) (oracleCondition (basisState x y))
        else basisState x y j)
      = basisState x (Bool.xor y (decide (matchesSecret x))) j
    rw [if_neg hj16]
    by_cases hj : j < 16
    · simp [basisState, N_CONFIG_BITS, hj]
    · simp [basisState, N_CONFIG_BITS, hj, hj16]

/-- C2: The oracle transform is self-inverse: applying the circuit returned
by `build_Uf_condor()` twice in sequence is the identity on every (basis)
state of the wires. -/
theorem C2_oracle_self_inverse (s : Nat → Bool) :
    build_Uf_condor.run (build_Uf_condor.run s) = s := by
  rw [build_Uf_condor_run_char, build_Uf_condor_run_char]
  have horc : oracleCondition
      (fun j => if j = 16 then Bool.xor (s j) (oracleCondition s) else s j)
      = oracleCondition s :=
    oracleCondition_congr _ _ (fun c hc => by
      have hne : ¬(c = 16) := by omega
      simp [hne])
  funext j
  show (if j = 16
      then Bool.xor
        ((fun j => if j = 16 then Bool.xor (s j) (oracleCondition s) else s j) j)
        (oracleCondition
          (fun j => if j = 16 then Bool.xor (s j) (oracleCondition s) else s j))
      else (fun j => if j = 16 then Bool.xor (s j) (oracleCondition s) else s j) j)
    = s j
  rw [horc]
  by_cases hj16 : j = 16
  · subst hj16
    simp [Bool.xor_assoc]
  · simp [hj16]

/-- C3: For every basis-state input, applying the oracle leaves the value of
each of the 16 input wires (indices `0..15`) unchanged; only the ancilla wire
(index `16`) may change. -/
theorem C3_input_wires_unchanged (s : Nat → Bool) (j : Nat) (hj : j < 16) :
    build_Uf_condor.run s j = s j := by
  rw [build_Uf_condor_run_char]
  have hne : ¬(j = 16) := by omega
  simp [hne]

theorem C3_witness :
    3 < 16 ∧ build_Uf_condor.run (fun k => k % 2 == 0) 3 = false :=
  ⟨by decide, C3_input_wires_unchanged (fun k => k % 2 == 0) 3 (by decide)⟩

/-- C4: With secret pattern `1011101011010101` (bits `x_0..x_15`), the built
oracle maps input `x` equal to the secret with `y = 0` to ancilla `1`; the
secret with its last bit flipped and `y = 0` to ancilla `0`; and the bitwise
complement of the secret with `y = 1` to ancilla `1` (unchanged). -/
theorem C4_end_to_end_scenario :
    build_Uf_condor.run (basisState (bitsOfString "1011101011010101") false) 16 = true
      ∧ build_Uf_condor.run (basisState (bitsOfString "1011101011010100") false) 16 = false
      ∧ build_Uf_condor.run (basisState (bitsOfString "0100010100101010") true) 16 = true := by
  decide

/-- C5: The internal gate sequence is exactly: a complement gate on each wire
`i` whose secret-pattern bit is `0`, then one multi-controlled complement
gate controlled on all 16 input wires targeting the ancilla wire, then the
same complement gates re-applied on the same wire indices, in that order and
with no other gates. -/
theorem C5_internal_gate_sequence :
    _build_internal_condor_oracle.instrs
      = ((List.range N_CONFIG_BITS).filter (fun i => secretBool i == false)).map
          (fun i => Instr.prim (PrimGate.x i))
        ++ [Instr.prim (PrimGate.mcx (List.range N_CONFIG_BITS) N_CONFIG_BITS)]
        ++ ((List.range N_CONFIG_BITS).filter (fun i => secretBool i == false)).map
          (fun i => Instr.prim (PrimGate.x i)) := by
  decide

/-- C6, counterexample: with the malformed secret `"10110"` (length `5 ≠ 16`),
the modelled module initialization still succeeds, and `build_Uf_condor`
still returns a 17-wire circuit at call time — the module does not fail fast
(or at all) on a malformed secret pattern. -/
theorem C6_counterexample_no_failfast :
    "10110".length ≠ 16
      ∧ condorModuleInitWith "10110" = Except.ok (16, "10110")
      ∧ (build_Uf_condorWith "10110").numQubits = 17 :=
  ⟨by decide, rfl, rfl⟩

lemma build_Uf_condorExc_secret :
    build_Uf_condorExc SECRET_BITSTRING = Except.ok build_Uf_condor := rfl

lemma buildInternalCondorOracleExc_raises :
    (buildInternalCondorOracleExc "000000000000000000").isOk = false := by decide

/-- C6, amended: module initialization performs no validation of the secret
pattern and always succeeds, malformed secrets included; and a malformed
secret need not fail at call time either: with the length-5 secret
`"10110"`, building through the bounds-checked appends also succeeds and
returns the same 17-wire circuit as the total model. (A malformed secret
*can* still fail at call time — see `buildInternalCondorOracleExc_raises`
for a secret with a `'0'` at index `≥ 17` — so failure is neither at
initialization nor guaranteed at call time.) -/
theorem C6_amended_no_validation (secret : String) :
    condorModuleInitWith secret = Except.ok (N_CONFIG_BITS, secret)
      ∧ build_Uf_condorExc "10110" = Except.ok (build_Uf_condorWith "10110")
      ∧ (build_Uf_condorWith "10110").numQubits = 17 :=
  ⟨rfl, rfl, rfl⟩

/-- C7: The circuit returned by `build_Uf_condor()` declares exactly
`N_CONFIG_BITS + 1 = 17` wires, and the exposed constant `N_CONFIG_BITS`
equals `16`. -/
theorem C7_wire_count :
    build_Uf_condor.numQubits = N_CONFIG_BITS + 1
      ∧ N_CONFIG_BITS = 16
      ∧ build_Uf_condor.numQubits = 17 := by
  decide

/-- C8: The circuit returned by `build_Uf_condor()` contains exactly one
top-level instruction: a single application of a named boxed gate
(`"Uf_condor"`, 17 qubits) across all 17 wires in order. -/
theorem C8_single_boxed_instruction :
    ∃ g : BoxedGate, g.name = "Uf_condor" ∧ g.numQubits = 17
      ∧ build_Uf_condor.instrs = [Instr.boxed g (List.range 17)] := by
  refine ⟨BoxedGate.mk "Uf_condor" "$U_f$" 17
      (_build_internal_condor_oracle.instrs.flatMap Instr.flatten), rfl, rfl, ?_⟩
  decide

/-- C10: Under the actual module configuration, `build_Uf_condor` is total
(it is a Lean function, hence always terminates and returns a circuit, with
no failure path in its definition), and every primitive gate performed by
the public circuit and appended by the internal construction addresses only
wire indices in `0..16`. -/
theorem C10_total_and_wires_in_range :
    (build_Uf_condor.instrs.flatMap Instr.flatten).all
        (PrimGate.wiresBelow (N_CONFIG_BITS + 1)) = true
      ∧ (_build_internal_condor_oracle.instrs.flatMap Instr.flatten).all
        (PrimGate.wiresBelow (N_CONFIG_BITS + 1)) = true
      ∧ build_Uf_condor.numQubits = N_CONFIG_BITS + 1 := by
  decide
